import Mathlib

/-!
# Verification of the Celestron AUX packet protocol core

Shallow embedding of `celestronauxpacket.cpp`: the `Packet` codec
(`FillBuffer`, `Parse`, `checksum`) and the `Communicator` exchange layer
(`sendPacket`, `readPacket`, `sendCommand`, `commandBlind`).

Bytes are modelled as `Nat` values; every store into a `uint8_t` location
is written with an explicit `% 256`.  Wire buffers are `List Nat`.  The
transport (serial port) is modelled by explicit outcome environments: a
function giving the success of each `tty_write`, and a function giving the
outcome of each `readPacket` invocation (transport failure, or a length
byte together with the `length + 1` body bytes that were read).
-/

namespace Aux

set_option maxRecDepth 8000

/-- Wire header byte `Packet::AUX_HDR` (0x3b). -/
def AUX_HDR : Nat := 0x3b

/-- Modelled from the spec: the `Target` enumeration (single-byte endpoint
addresses) is declared in `celestronauxpacket.h`, which is not among the
sources; the spec's worked example uses `0x20` as the controlling
application's address, so `Target::APP` is modelled as the fixed byte
`0x20`.  Only the fact that it is a fixed constant matters below. -/
def Target_APP : Nat := 0x20

/-- The logical frame: fields of class `Packet` (source, destination,
command, derived length, payload bytes). -/
structure Packet where
  source : Nat
  destination : Nat
  command : Nat
  length : Nat
  data : List Nat
deriving DecidableEq, Repr

/-- The default constructor `Packet() {}` (used for the local reply packet
in `sendCommand`); its field values are never observed before `Parse`
overwrites them on any accepted path. -/
def Packet.default : Packet :=
  { source := 0, destination := 0, command := 0, length := 0, data := [] }

/-- The constructor `Packet(Target source, Target destination, Command
command, buffer data)`: stores the fields and sets
`length = data.size() + 3`. -/
def Packet.make (source destination command : Nat) (data : List Nat) : Packet :=
  { source := source, destination := destination, command := command
    length := data.length + 3, data := data }

/-- `Packet::checksum`: sums `packet[i]` for `i = 1 .. packet[1] + 1`
(the loop `for (int i = 1; i < packet[1] + 2; i++)`) into an `int`
accumulator and returns `(-cs & 0xff)`, i.e. `(0 - cs) mod 256`. -/
def Packet.checksum (packet : List Nat) : Nat :=
  (256 - ((List.range' 1 (packet.getD 1 0 + 1)).foldl
    (fun cs i => cs + packet.getD i 0) 0) % 256) % 256

/-- The payload-copy loop of `Packet::FillBuffer`
(`for i: buff[5 + i] = data[i]`), iterating over the payload and storing
each byte at successive offsets. -/
def fillData (buff : List Nat) (i : Nat) : List Nat → List Nat
  | [] => buff
  | d :: ds => fillData (buff.set i (d % 256)) (i + 1) ds

/-- `Packet::FillBuffer`: resizes a fresh buffer to `length + 3`
(zero-filled), stores header, length, source, destination and command
bytes, copies the payload at offset 5, and stores the checksum of the
buffer in its final byte. -/
def Packet.FillBuffer (p : Packet) : List Nat :=
  let b0 := List.replicate (p.length + 3) 0
  let b1 := ((((b0.set 0 AUX_HDR).set 1 (p.length % 256)).set 2
    (p.source % 256)).set 3 (p.destination % 256)).set 4 (p.command % 256)
  let b2 := fillData b1 5 p.data
  b2.set (b2.length - 1) (Packet.checksum b2)

/-- `Packet::Parse`: mutates `this` while decoding, so it is modelled as
returning the updated packet together with the `bool` result.  Checks, in
order: size at least 6; header byte; `length` (assigned from `packet[1]`)
consistent with the size; then populates source, destination, command and
the payload `buffer(packet.begin() + 5, packet.end() - 1)`, and finally
returns whether the stored checksum byte equals the recomputed one. -/
def Packet.Parse (p : Packet) (packet : List Nat) : Packet × Bool :=
  if packet.length < 6 then (p, false)
  else if packet.getD 0 0 ≠ AUX_HDR then (p, false)
  else
    let p1 : Packet := { p with length := packet.getD 1 0 }
    if packet.length ≠ p1.length + 3 then (p1, false)
    else
      let p2 : Packet := { p1 with
        source := packet.getD 2 0
        destination := packet.getD 3 0
        command := packet.getD 4 0
        data := (packet.drop 5).dropLast }
      let cs := Packet.checksum packet
      let cb := packet.getD (p1.length + 2) 0
      (p2, cb == cs)

/-- The `Communicator`: holds the fixed `source` endpoint used for all
frames it sends (`Communicator(Target source)`). -/
structure Communicator where
  source : Nat
deriving DecidableEq, Repr

/-- Outcome of one `Communicator::readPacket` call, as delivered by the
transport: either a `tty` failure at one of its three read stages (header
scan, length byte, body), or a successful read of a length byte `len`
followed by `len + 1` body bytes. -/
inductive ReadOutcome where
  | fail
  | ok (len : Nat) (body : List Nat)
deriving DecidableEq, Repr

/-- `Communicator::sendPacket` encodes
`Packet(source, dest, cmd, data)` and writes the resulting buffer; this
gives the bytes handed to `tty_write` (the write's success comes from the
transport environment). -/
def Communicator.sendPacket (c : Communicator) (dest cmd : Nat) (data : List Nat) : List Nat :=
  (Packet.make c.source dest cmd data).FillBuffer

/-- `Communicator::readPacket`: on any transport read failure the reply
packet is left untouched and `false` is returned; on success the bytes
`[AUX_HDR, len] ++ body` are assembled and handed to `Packet::Parse`. -/
def Communicator.readPacket (ro : ReadOutcome) (reply : Packet) : Packet × Bool :=
  match ro with
  | .fail => (reply, false)
  | .ok len body => reply.Parse (AUX_HDR :: len % 256 :: body)

/-- The reply-acceptance test of `Communicator::sendCommand`: the read
must succeed (`readPacket` returned `true`) and the decoded packet must
satisfy `pkt.command == cmd && pkt.destination == Target::APP &&
pkt.source == dest` (the negation of the `continue` condition). -/
def acceptsReply (dest cmd : Nat) (ro : ReadOutcome) : Bool :=
  let pr := Communicator.readPacket ro Packet.default
  pr.2 && (pr.1.command == cmd) && (pr.1.destination == Target_APP)
    && (pr.1.source == dest)

/-- Result of one `sendCommand` run: the reply payload (`none` models the
`false` return with the caller's reply buffer untouched), the list of
buffers handed to `tty_write` (one per attempted send), and the number of
`readPacket` invocations. -/
structure ExchangeResult where
  reply : Option (List Nat)
  txs : List (List Nat)
  reads : Nat
deriving DecidableEq, Repr

/-- The retry loop of `Communicator::sendCommand`
(`while (num_tries++ < 3)`), with `k` the index of the current attempt in
the transport environments and the fuel counting the remaining attempts:
a failed send returns `false` at once; a failed read or a mismatched
reply consumes the attempt; a matching reply is returned. -/
def Communicator.sendCommandLoop (c : Communicator) (dest cmd : Nat) (data : List Nat)
    (wr : Nat → Bool) (rd : Nat → ReadOutcome) : Nat → Nat → ExchangeResult
  | _, 0 => { reply := none, txs := [], reads := 0 }
  | k, fuel + 1 =>
    let tx := c.sendPacket dest cmd data
    if wr k then
      if acceptsReply dest cmd (rd k) then
        { reply := some (Communicator.readPacket (rd k) Packet.default).1.data
          txs := [tx], reads := 1 }
      else
        let rest := c.sendCommandLoop dest cmd data wr rd (k + 1) fuel
        { reply := rest.reply, txs := tx :: rest.txs, reads := rest.reads + 1 }
    else
      { reply := none, txs := [tx], reads := 0 }

/-- `Communicator::sendCommand` (data-and-reply form): the retry loop
starting at attempt 0 with a budget of 3 attempts. -/
def Communicator.sendCommand (c : Communicator) (dest cmd : Nat) (data : List Nat)
    (wr : Nat → Bool) (rd : Nat → ReadOutcome) : ExchangeResult :=
  c.sendCommandLoop dest cmd data wr rd 0 3

/-- The `sendCommand` overload without outgoing data: constructs
`buffer data(0)` (empty) and delegates. -/
def Communicator.sendCommand' (c : Communicator) (dest cmd : Nat)
    (wr : Nat → Bool) (rd : Nat → ReadOutcome) : ExchangeResult :=
  c.sendCommand dest cmd [] wr rd

/-- `Communicator::commandBlind`: delegates to `sendCommand` with a local
reply buffer that is discarded, returning only the `bool`; the transport
interactions (writes and reads) of the underlying exchange are reported
alongside. -/
def Communicator.commandBlind (c : Communicator) (dest cmd : Nat) (data : List Nat)
    (wr : Nat → Bool) (rd : Nat → ReadOutcome) : Bool × List (List Nat) × Nat :=
  let r := c.sendCommand dest cmd data wr rd
  (r.reply.isSome, r.txs, r.reads)

/-! ### Helper lemmas about list primitives -/

/-- Setting the element right after a prefix. -/
lemma set_at_length (pre : List Nat) (x v : Nat) (r : List Nat) :
    (pre ++ x :: r).set pre.length v = pre ++ v :: r := by
  rw [List.set_append]
  simp

/-- The payload-copy loop writes the payload (as bytes) over the zero
region it is aimed at. -/
lemma fillData_append (data : List Nat) : ∀ (pre suf : List Nat), data.length ≤ suf.length →
    fillData (pre ++ suf) pre.length data = pre ++ data.map (· % 256) ++ suf.drop data.length := by
  induction data with
  | nil => intro pre suf _; simp [fillData]
  | cons d ds ih =>
    intro pre suf h
    match suf with
    | [] => simp at h
    | x :: xs =>
      rw [fillData, set_at_length]
      have h1 : pre ++ (d % 256) :: xs = (pre ++ [d % 256]) ++ xs := by simp
      have h2 : pre.length + 1 = (pre ++ [d % 256]).length := by simp
      rw [h1, h2, ih (pre ++ [d % 256]) xs (by simpa using h)]
      simp

/-- The checksum's accumulation loop is the sum of the window of bytes it
visits. -/
lemma foldl_getD_sum (b : List Nat) : ∀ (m i a : Nat),
    (List.range' i m).foldl (fun cs j => cs + b.getD j 0) a = a + ((b.drop i).take m).sum := by
  intro m
  induction m with
  | zero => intro i a; simp
  | succ m ih =>
    intro i a
    rw [List.range'_succ, List.foldl_cons, ih]
    have : ((b.drop i).take (m + 1)).sum = b.getD i 0 + ((b.drop (i + 1)).take m).sum := by
      match hd : b.drop i with
      | [] =>
        have hlen : b.length ≤ i := by
          have := List.drop_eq_nil_iff.mp hd
          omega
        have h2 : b.drop (i + 1) = [] := List.drop_eq_nil_iff.mpr (by omega)
        rw [h2, List.getD_eq_default _ _ hlen]
        simp
      | y :: ys =>
        have hy : b.getD i 0 = y := by
          rw [List.getD_eq_getElem?_getD]
          have : b[i]? = (b.drop i)[0]? := by simp [List.getElem?_drop]
          rw [this, hd]
          simp
        have hys : b.drop (i + 1) = ys := by
          have : b.drop (i + 1) = (b.drop i).drop 1 := by rw [List.drop_drop]
          rw [this, hd]
          rfl
        rw [hy, hys, List.take_succ_cons, List.sum_cons]
    rw [this]
    omega

/-- The checksum in window form: negated sum of the `packet[1] + 1` bytes
starting at offset 1. -/
lemma checksum_window (b : List Nat) :
    Packet.checksum b = (256 - ((b.drop 1).take (b.getD 1 0 + 1)).sum % 256) % 256 := by
  rw [Packet.checksum, foldl_getD_sum]
  simp

/-- The checksum never reads the final byte of a buffer whose length byte
covers exactly the interior, so that byte's value is irrelevant. -/
lemma checksum_last_irrelevant (pre : List Nat) (x y : Nat)
    (h : pre.getD 1 0 + 2 ≤ pre.length) :
    Packet.checksum (pre ++ [x]) = Packet.checksum (pre ++ [y]) := by
  have hlen : 1 < pre.length := by omega
  have hg : ∀ z : Nat, (pre ++ [z]).getD 1 0 = pre.getD 1 0 := fun z =>
    List.getD_append _ _ _ _ hlen
  have hdt : ∀ z : Nat, ((pre ++ [z]).drop 1).take (pre.getD 1 0 + 1)
      = (pre.drop 1).take (pre.getD 1 0 + 1) := by
    intro z
    rw [List.drop_append_of_le_length (by omega)]
    exact List.take_append_of_le_length (by rw [List.length_drop]; omega)
  rw [checksum_window, checksum_window, hg, hg, hdt, hdt]

/-- The five header stores of `FillBuffer` over a zero-filled buffer. -/
lemma replicate_header (n L s d c : Nat) :
    ((((((List.replicate (n + 3 + 3) (0:Nat)).set 0 AUX_HDR).set 1 L).set 2 s).set 3 d).set 4 c)
      = AUX_HDR :: L :: s :: d :: c :: List.replicate (n + 1) 0 := by
  have h : List.replicate (n + 3 + 3) (0:Nat) = 0 :: 0 :: 0 :: 0 :: 0 :: List.replicate (n + 1) 0 := rfl
  rw [h]
  rfl

/-- The payload-copy loop starting at offset 5 below the five header
bytes. -/
lemma fillData_at5 (a b c d e : Nat) (data suf : List Nat) (h : data.length ≤ suf.length) :
    fillData (a :: b :: c :: d :: e :: suf) 5 data
      = a :: b :: c :: d :: e :: (data.map (· % 256) ++ suf.drop data.length) := by
  have key := fillData_append data [a, b, c, d, e] suf h
  simpa using key

/-- Dropping all but one element of a run of zeros. -/
lemma drop_replicate_succ (n : Nat) : (List.replicate (n + 1) (0:Nat)).drop n = [0] := by
  rw [List.drop_replicate, Nat.add_sub_cancel_left]
  rfl

/-- Overwriting the final placeholder byte of the assembled buffer. -/
lemma set_last_concat (pre : List Nat) (v : Nat) :
    (pre ++ [0]).set ((pre ++ [0]).length - 1) v = pre ++ [v] := by
  have h : (pre ++ [0]).length - 1 = pre.length := by simp
  rw [h, set_at_length]

/-- `FillBuffer` of a constructor-built packet in explicit concatenation
form, valid whenever the length byte does not truncate
(`data.size() + 3 ≤ 255`). -/
lemma fillBuffer_make (s d c : Nat) (data : List Nat) (h : data.length + 3 ≤ 255) :
    (Packet.make s d c data).FillBuffer
      = (AUX_HDR :: (data.length + 3) :: s % 256 :: d % 256 :: c % 256 :: data.map (· % 256))
          ++ [Packet.checksum ((AUX_HDR :: (data.length + 3) :: s % 256 :: d % 256 :: c % 256 ::
              data.map (· % 256)) ++ [0])] := by
  simp only [Packet.FillBuffer, Packet.make]
  rw [Nat.mod_eq_of_lt (show data.length + 3 < 256 by omega)]
  rw [replicate_header, fillData_at5 _ _ _ _ _ _ _ (by simp), drop_replicate_succ]
  exact set_last_concat
    (AUX_HDR :: (data.length + 3) :: s % 256 :: d % 256 :: c % 256 :: data.map (· % 256)) _

/-- `Parse` on a buffer of the well-formed shape: all structural checks
pass, the fields are populated, and the result is the comparison of the
final byte with the recomputed checksum. -/
lemma parse_explicit (q : Packet) (L s d c : Nat) (mid : List Nat) (last : Nat)
    (hL : L = mid.length + 3) :
    Packet.Parse q (AUX_HDR :: L :: s :: d :: c :: (mid ++ [last]))
      = ({ source := s, destination := d, command := c, length := L, data := mid },
         last == Packet.checksum (AUX_HDR :: L :: s :: d :: c :: (mid ++ [last]))) := by
  have hlen6 : (AUX_HDR :: L :: s :: d :: c :: (mid ++ [last])).length = mid.length + 6 := by
    simp
  have hcb : (s :: d :: c :: (mid ++ [last])).getD L 0 = last := by
    have h3 : s :: d :: c :: (mid ++ [last]) = [s, d, c] ++ (mid ++ [last]) := rfl
    rw [h3, List.getD_append_right _ _ _ _ (by simp; omega)]
    have h2 : L - [s, d, c].length = mid.length := by simp; omega
    rw [h2, List.getD_append_right _ _ _ _ (le_refl _)]
    simp
  simp only [Packet.Parse, hlen6, List.getD_cons_succ, List.getD_cons_zero]
  rw [if_neg (by omega)]
  rw [if_neg (by simp)]
  rw [if_neg (by omega)]
  rw [hcb]
  simp [List.dropLast_concat]

/-- The checksum value is always a byte. -/
lemma checksum_lt (b : List Nat) : Packet.checksum b < 256 := by
  rw [Packet.checksum]
  exact Nat.mod_lt _ (by omega)

/-- Mapping the byte-truncation over a list of bytes is the identity. -/
lemma map_mod_eq_self (data : List Nat) (hdata : ∀ x ∈ data, x < 256) :
    data.map (· % 256) = data := by
  conv_rhs => rw [← List.map_id data]
  exact List.map_congr_left (fun x hx => Nat.mod_eq_of_lt (hdata x hx))

/-- C2 (amended): for every source, destination and command byte and
every payload of bytes whose size is at most 252 (so that
`length = size + 3` fits the single wire length byte), decoding the
encoded frame succeeds, reports checksum-valid, and returns exactly the
original frame, whatever packet the decode started from.  (For larger
payloads — still well within the transport's 2048-byte read buffer — the
stored length byte truncates mod 256 and decoding fails, see the
counterexample.) -/
theorem parse_fillBuffer_roundTrip (q : Packet) (s d c : Nat) (data : List Nat)
    (hs : s < 256) (hd : d < 256) (hc : c < 256) (hdata : ∀ x ∈ data, x < 256)
    (hlen : data.length ≤ 252) :
    Packet.Parse q (Packet.make s d c data).FillBuffer = (Packet.make s d c data, true) := by
  have hfb := fillBuffer_make s d c data (by omega)
  rw [map_mod_eq_self data hdata, Nat.mod_eq_of_lt hs, Nat.mod_eq_of_lt hd,
    Nat.mod_eq_of_lt hc] at hfb
  simp only [List.cons_append] at hfb
  rw [hfb, parse_explicit q (data.length + 3) s d c data _ rfl]
  have hck : Packet.checksum (AUX_HDR :: (data.length + 3) :: s :: d :: c :: (data ++ [0]))
      = Packet.checksum (AUX_HDR :: (data.length + 3) :: s :: d :: c ::
          (data ++ [Packet.checksum (AUX_HDR :: (data.length + 3) :: s :: d :: c ::
            (data ++ [0]))])) := by
    have h1 : ∀ z : Nat, AUX_HDR :: (data.length + 3) :: s :: d :: c :: (data ++ [z])
        = (AUX_HDR :: (data.length + 3) :: s :: d :: c :: data) ++ [z] := by
      intro z; simp
    rw [h1, h1]
    exact (checksum_last_irrelevant _ _ _ (by simp)).symm
  rw [← hck]
  simp [Packet.make, beq_self_eq_true]

/-- C2 (counterexample to the claim as stated): a frame with a 253-byte
payload — far below the transport's 2048-byte read buffer, the only
externally enforced bound — does not survive the encode/decode round
trip: `length = 256` truncates to a zero length byte and `Parse` rejects
the buffer. -/
theorem roundTrip_cex :
    (Packet.Parse Packet.default
        (Packet.make 0 0 0 (List.replicate 253 0)).FillBuffer).2 = false
    ∧ (List.replicate 253 (0:Nat)).length + 3 ≤ 2048 := by
  decide

/-- `Parse` on any buffer passing the three structural checks: the frame
fields are populated from the buffer and the result is the comparison of
the stored checksum byte with the recomputed checksum. -/
lemma parse_valid_shape (p : Packet) (b : List Nat)
    (h6 : 6 ≤ b.length) (hh : b.getD 0 0 = AUX_HDR)
    (hl : b.length = b.getD 1 0 + 3) :
    Packet.Parse p b
      = ({ source := b.getD 2 0, destination := b.getD 3 0, command := b.getD 4 0,
           length := b.getD 1 0, data := (b.drop 5).dropLast },
         b.getD (b.getD 1 0 + 2) 0 == Packet.checksum b) := by
  simp only [Packet.Parse]
  rw [if_neg (by omega), if_neg (by simpa using hh), if_neg (by simp [hl])]

/-- C4: for every buffer that passes the size, header and length checks
of `Parse`, a checksum mismatch is reported only as the boolean result —
which is exactly the comparison of the stored checksum byte against the
recomputed checksum — and by then source, destination, command, length
and payload have already been populated from the buffer. -/
theorem parse_checksum_boolean (p : Packet) (b : List Nat)
    (h6 : 6 ≤ b.length) (hh : b.getD 0 0 = AUX_HDR)
    (hl : b.length = b.getD 1 0 + 3) :
    Packet.Parse p b
      = ({ source := b.getD 2 0, destination := b.getD 3 0, command := b.getD 4 0,
           length := b.getD 1 0, data := (b.drop 5).dropLast },
         b.getD (b.getD 1 0 + 2) 0 == Packet.checksum b) :=
  parse_valid_shape p b h6 hh hl

/-- C4 witness: a buffer with a wrong checksum byte decodes to the
populated frame together with the boolean `false`. -/
theorem parse_checksum_boolean_witness :
    Packet.Parse Packet.default [0x3B, 3, 0x20, 0x12, 1, 0]
      = ({ source := 0x20, destination := 0x12, command := 1, length := 3, data := [] },
         false) := by
  rw [parse_checksum_boolean Packet.default [0x3B, 3, 0x20, 0x12, 1, 0]
    (by decide) (by decide) (by decide)]
  decide

/-- C5: every buffer of at least 6 bytes that starts with the header byte
but whose size differs from `buffer[1] + 3` is rejected by `Parse`
(length-mismatch failure), and no decoded frame is delivered: source,
destination, command and payload of the packet are left untouched. -/
theorem parse_length_mismatch (p : Packet) (b : List Nat)
    (h6 : 6 ≤ b.length) (hh : b.getD 0 0 = AUX_HDR)
    (hne : b.length ≠ b.getD 1 0 + 3) :
    (Packet.Parse p b).2 = false
    ∧ (Packet.Parse p b).1.source = p.source
    ∧ (Packet.Parse p b).1.destination = p.destination
    ∧ (Packet.Parse p b).1.command = p.command
    ∧ (Packet.Parse p b).1.data = p.data := by
  simp only [Packet.Parse]
  rw [if_neg (by omega), if_neg (by simpa using hh), if_pos hne]
  simp

/-- C5 witness: a 6-byte buffer announcing a 9-byte interior is rejected
with the caller's frame fields untouched. -/
theorem parse_length_mismatch_witness :
    (Packet.Parse ⟨9, 8, 7, 6, [5]⟩ [0x3B, 9, 0, 0, 0, 0]).2 = false
    ∧ (Packet.Parse ⟨9, 8, 7, 6, [5]⟩ [0x3B, 9, 0, 0, 0, 0]).1.source = 9
    ∧ (Packet.Parse ⟨9, 8, 7, 6, [5]⟩ [0x3B, 9, 0, 0, 0, 0]).1.destination = 8
    ∧ (Packet.Parse ⟨9, 8, 7, 6, [5]⟩ [0x3B, 9, 0, 0, 0, 0]).1.command = 7
    ∧ (Packet.Parse ⟨9, 8, 7, 6, [5]⟩ [0x3B, 9, 0, 0, 0, 0]).1.data = [5] :=
  parse_length_mismatch ⟨9, 8, 7, 6, [5]⟩ [0x3B, 9, 0, 0, 0, 0]
    (by decide) (by decide) (by decide)

/-- C10: when `Parse` fails the size or header check every field of the
packet is left unchanged, but when it fails the length check the `length`
field has already been overwritten with the wire length byte while
source, destination, command and payload remain unchanged. -/
theorem parse_failure_frame_effect (p : Packet) (b : List Nat) :
    ((b.length < 6 ∨ b.getD 0 0 ≠ AUX_HDR) → (Packet.Parse p b).1 = p)
    ∧ (6 ≤ b.length → b.getD 0 0 = AUX_HDR → b.length ≠ b.getD 1 0 + 3 →
        (Packet.Parse p b).1 = { p with length := b.getD 1 0 }) := by
  constructor
  · rintro (h | h)
    · simp only [Packet.Parse]
      rw [if_pos h]
    · simp only [Packet.Parse]
      by_cases h6 : b.length < 6
      · rw [if_pos h6]
      · rw [if_neg h6, if_pos h]
  · intro h6 hh hne
    simp only [Packet.Parse]
    rw [if_neg (by omega), if_neg (by simpa using hh), if_pos hne]

/-- C10 witness: a short buffer leaves the packet untouched; a buffer
failing only the length check overwrites exactly the length field. -/
theorem parse_failure_frame_effect_witness :
    (Packet.Parse ⟨9, 8, 7, 6, [5]⟩ [1, 2, 3]).1 = ⟨9, 8, 7, 6, [5]⟩
    ∧ (Packet.Parse ⟨9, 8, 7, 6, [5]⟩ [0x3B, 9, 0, 0, 0, 0]).1 = ⟨9, 8, 7, 9, [5]⟩ := by
  constructor
  · exact (parse_failure_frame_effect ⟨9, 8, 7, 6, [5]⟩ [1, 2, 3]).1 (Or.inl (by decide))
  · rw [(parse_failure_frame_effect ⟨9, 8, 7, 6, [5]⟩ [0x3B, 9, 0, 0, 0, 0]).2
      (by decide) (by decide) (by decide)]
    decide

/-- C3: encoding the frame with source `0x20`, destination `0x12`,
command `0x01` and empty payload yields exactly `3B 03 20 12 01 CA`; the
length byte is `0x03` and the checksum byte is
`0xCA = (0 - (0x03 + 0x20 + 0x12 + 0x01)) mod 256`. -/
theorem fillBuffer_worked_example :
    (Packet.make 0x20 0x12 0x01 []).FillBuffer = [0x3B, 0x03, 0x20, 0x12, 0x01, 0xCA]
    ∧ Packet.checksum [0x3B, 0x03, 0x20, 0x12, 0x01, 0xCA] = 0xCA
    ∧ (0xCA : Nat) = (256 - (0x03 + 0x20 + 0x12 + 0x01) % 256) % 256 := by
  decide

/-- C6: if every write succeeds and each of the three attempted reads
yields a reply that is not accepted (malformed, checksum-invalid or
misdirected), `sendCommand` performs exactly 3 send attempts (3 writes)
and 3 reads, then reports overall failure with no partial result — it
never makes a 4th attempt. -/
theorem sendCommand_exhausts_three_attempts (c : Communicator) (dest cmd : Nat)
    (data : List Nat) (wr : Nat → Bool) (rd : Nat → ReadOutcome)
    (hw : ∀ k < 3, wr k = true)
    (hr : ∀ k < 3, acceptsReply dest cmd (rd k) = false) :
    c.sendCommand dest cmd data wr rd
      = { reply := none, txs := List.replicate 3 (c.sendPacket dest cmd data),
          reads := 3 } := by
  have h0 := hw 0 (by omega)
  have h1 := hw 1 (by omega)
  have h2 := hw 2 (by omega)
  have r0 := hr 0 (by omega)
  have r1 := hr 1 (by omega)
  have r2 := hr 2 (by omega)
  simp [Communicator.sendCommand, Communicator.sendCommandLoop, h0, h1, h2, r0, r1, r2,
    List.replicate]

/-- C6 witness: three well-formed but checksum-invalid replies exhaust
the three attempts. -/
theorem sendCommand_exhausts_three_attempts_witness :
    Communicator.sendCommand ⟨0x20⟩ 0x12 1 [] (fun _ => true)
        (fun _ => ReadOutcome.ok 3 [0, 0, 0, 0])
      = { reply := none,
          txs := List.replicate 3 (Communicator.sendPacket ⟨0x20⟩ 0x12 1 []),
          reads := 3 } :=
  sendCommand_exhausts_three_attempts ⟨0x20⟩ 0x12 1 [] _ _ (by decide) (by decide)

/-- C7: if the first transport write fails, `sendCommand` reports failure
immediately: exactly one write attempt, no read, no retry. -/
theorem sendCommand_write_failure (c : Communicator) (dest cmd : Nat) (data : List Nat)
    (wr : Nat → Bool) (rd : Nat → ReadOutcome) (hw : wr 0 = false) :
    c.sendCommand dest cmd data wr rd
      = { reply := none, txs := [c.sendPacket dest cmd data], reads := 0 } := by
  simp [Communicator.sendCommand, Communicator.sendCommandLoop, hw]

/-- C7 witness: a failing transport write aborts the exchange after one
write and zero reads. -/
theorem sendCommand_write_failure_witness :
    Communicator.sendCommand ⟨0x20⟩ 0x12 1 [] (fun _ => false) (fun _ => ReadOutcome.fail)
      = { reply := none, txs := [Communicator.sendPacket ⟨0x20⟩ 0x12 1 []], reads := 0 } :=
  sendCommand_write_failure ⟨0x20⟩ 0x12 1 [] _ _ (by decide)

/-- C9: the reply-only form is `sendCommand` with an empty payload, and
`commandBlind` is `sendCommand` with the reply payload discarded — same
success result and the same transport interactions for every input. -/
theorem convenience_forms_delegate (c : Communicator) (dest cmd : Nat) (data : List Nat)
    (wr : Nat → Bool) (rd : Nat → ReadOutcome) :
    c.sendCommand' dest cmd wr rd = c.sendCommand dest cmd [] wr rd
    ∧ (c.commandBlind dest cmd data wr rd).1
        = (c.sendCommand dest cmd data wr rd).reply.isSome
    ∧ (c.commandBlind dest cmd data wr rd).2.1 = (c.sendCommand dest cmd data wr rd).txs
    ∧ (c.commandBlind dest cmd data wr rd).2.2 = (c.sendCommand dest cmd data wr rd).reads :=
  ⟨rfl, rfl, rfl, rfl⟩

/-- The acceptance test unfolded into its four conjuncts. -/
lemma acceptsReply_eq_true_iff (dest cmd : Nat) (ro : ReadOutcome) :
    acceptsReply dest cmd ro = true ↔
      (Communicator.readPacket ro Packet.default).2 = true
      ∧ (Communicator.readPacket ro Packet.default).1.command = cmd
      ∧ (Communicator.readPacket ro Packet.default).1.destination = Target_APP
      ∧ (Communicator.readPacket ro Packet.default).1.source = dest := by
  simp [acceptsReply, Bool.and_eq_true, beq_iff_eq, and_assoc]

/-- Success of the retry loop, characterized: a reply is delivered
exactly when some attempt within the budget has a successful write and an
accepted read, every earlier attempt having written successfully and been
rejected. -/
lemma sendCommandLoop_reply_iff (c : Communicator) (dest cmd : Nat) (data : List Nat)
    (wr : Nat → Bool) (rd : Nat → ReadOutcome) (r : List Nat) :
    ∀ (fuel k : Nat),
      (c.sendCommandLoop dest cmd data wr rd k fuel).reply = some r ↔
        ∃ i < fuel, wr (k + i) = true ∧ acceptsReply dest cmd (rd (k + i)) = true
          ∧ r = (Communicator.readPacket (rd (k + i)) Packet.default).1.data
          ∧ ∀ j < i, wr (k + j) = true ∧ acceptsReply dest cmd (rd (k + j)) = false := by
  intro fuel
  induction fuel with
  | zero => intro k; simp [Communicator.sendCommandLoop]
  | succ fuel ih =>
    intro k
    by_cases hwk : wr k
    · by_cases hak : acceptsReply dest cmd (rd k)
      · simp only [Communicator.sendCommandLoop, hwk, hak, if_true]
        constructor
        · intro h
          refine ⟨0, by omega, by simpa using hwk, by simpa using hak, ?_, by omega⟩
          simpa using h.symm
        · rintro ⟨i, hi, hwi, hai, hr, hprev⟩
          cases i with
          | zero =>
            simp only [Nat.add_zero] at hr
            simpa using hr.symm
          | succ i =>
            have := (hprev 0 (by omega)).2
            rw [Nat.add_zero] at this
            rw [this] at hak
            exact absurd hak (by simp)
      · simp only [Communicator.sendCommandLoop, hwk, hak, if_true, if_false]
        rw [if_neg (show ¬(false = true) by simp)]
        rw [ih (k + 1)]
        constructor
        · rintro ⟨i, hi, hwi, hai, hr, hprev⟩
          have e : k + 1 + i = k + (i + 1) := by omega
          rw [e] at hwi hai hr
          refine ⟨i + 1, by omega, hwi, hai, hr, ?_⟩
          intro j hj
          cases j with
          | zero => exact ⟨by simpa using hwk, by simpa using hak⟩
          | succ j =>
            have e2 : k + (j + 1) = k + 1 + j := by omega
            rw [e2]
            exact hprev j (by omega)
        · rintro ⟨i, hi, hwi, hai, hr, hprev⟩
          cases i with
          | zero =>
            rw [Nat.add_zero] at hai
            rw [hai] at hak
            exact absurd rfl hak
          | succ i =>
            have e : k + (i + 1) = k + 1 + i := by omega
            rw [e] at hwi hai hr
            refine ⟨i, by omega, hwi, hai, hr, ?_⟩
            intro j hj
            have e2 : k + 1 + j = k + (j + 1) := by omega
            rw [e2]
            exact hprev (j + 1) (by omega)
    · simp only [Communicator.sendCommandLoop, hwk, if_false]
      constructor
      · intro h
        simp at h
      · rintro ⟨i, hi, hwi, hai, hr, hprev⟩
        cases i with
        | zero =>
          rw [Nat.add_zero] at hwi
          rw [hwi] at hwk
          exact absurd rfl hwk
        | succ i =>
          have := (hprev 0 (by omega)).1
          rw [Nat.add_zero] at this
          rw [this] at hwk
          exact absurd rfl hwk

/-- C1 (amended): `sendCommand` delivers a reply exactly when some
attempt `k < 3` has a successful write and a decoded reply whose command
equals the sent command, whose destination equals the fixed application
endpoint `Target::APP` (the comparison is hard-coded, it is not
`self.source`), and whose source equals the endpoint the command was sent
to — every earlier reply having been treated as misdirected or malformed
and having consumed one attempt. -/
theorem sendCommand_accepts_iff (c : Communicator) (dest cmd : Nat) (data : List Nat)
    (wr : Nat → Bool) (rd : Nat → ReadOutcome) (r : List Nat) :
    (c.sendCommand dest cmd data wr rd).reply = some r ↔
      ∃ k < 3, wr k = true
        ∧ (Communicator.readPacket (rd k) Packet.default).2 = true
        ∧ (Communicator.readPacket (rd k) Packet.default).1.command = cmd
        ∧ (Communicator.readPacket (rd k) Packet.default).1.destination = Target_APP
        ∧ (Communicator.readPacket (rd k) Packet.default).1.source = dest
        ∧ r = (Communicator.readPacket (rd k) Packet.default).1.data
        ∧ ∀ j < k, wr j = true ∧ acceptsReply dest cmd (rd j) = false := by
  have h := sendCommandLoop_reply_iff c dest cmd data wr rd r 3 0
  simp only [Nat.zero_add] at h
  rw [Communicator.sendCommand, h]
  constructor
  · rintro ⟨k, hk, hwk, hak, hr, hprev⟩
    have ha := (acceptsReply_eq_true_iff dest cmd (rd k)).mp hak
    exact ⟨k, hk, hwk, ha.1, ha.2.1, ha.2.2.1, ha.2.2.2, hr, hprev⟩
  · rintro ⟨k, hk, hwk, h1, h2, h3, h4, hr, hprev⟩
    exact ⟨k, hk, hwk, (acceptsReply_eq_true_iff dest cmd (rd k)).mpr ⟨h1, h2, h3, h4⟩,
      hr, hprev⟩

/-- C1 (counterexample to the claim as stated): a Communicator whose own
source endpoint is `Target::APP + 1` accepts a reply addressed to
`Target::APP` — a reply whose destination is not `self.source` — because
the destination comparison in `sendCommand` is hard-coded against
`Target::APP`. -/
theorem sendCommand_accepts_notSelf_cex :
    ((Communicator.mk (Target_APP + 1)).sendCommand 0x12 1 [] (fun _ => true)
        (fun _ => ReadOutcome.ok 3 [0x12, Target_APP, 1, 0xCA])).reply = some []
    ∧ (Communicator.readPacket (ReadOutcome.ok 3 [0x12, Target_APP, 1, 0xCA])
        Packet.default).1.destination ≠ (Communicator.mk (Target_APP + 1)).source := by
  decide

/-- C2 witness: a concrete two-byte payload survives the round trip. -/
theorem parse_fillBuffer_roundTrip_witness :
    Packet.Parse Packet.default (Packet.make 0x20 0x12 1 [7, 8]).FillBuffer
      = (Packet.make 0x20 0x12 1 [7, 8], true) :=
  parse_fillBuffer_roundTrip Packet.default 0x20 0x12 1 [7, 8] (by decide) (by decide)
    (by decide) (by decide) (by decide)

/-- Reading an untouched position of an updated list. -/
lemma getD_set_ne (l : List Nat) (i k v : Nat) (h : i ≠ k) :
    (l.set i v).getD k 0 = l.getD k 0 := by
  rw [List.getD_eq_getElem?_getD, List.getD_eq_getElem?_getD, List.getElem?_set_ne h]

/-- Reading inside the taken prefix. -/
lemma getD_take (l : List Nat) (m j : Nat) (h : j < m) :
    (l.take m).getD j 0 = l.getD j 0 := by
  rw [List.getD_eq_getElem?_getD, List.getD_eq_getElem?_getD, List.getElem?_take,
    if_pos h]

/-- Reading beyond a dropped prefix. -/
lemma getD_drop (l : List Nat) (m j : Nat) :
    (l.drop m).getD j 0 = l.getD (m + j) 0 := by
  rw [List.getD_eq_getElem?_getD, List.getD_eq_getElem?_getD, List.getElem?_drop]

/-- Replacing one element shifts the sum by the difference of the old and
new values. -/
lemma sum_set_add (l : List Nat) : ∀ (j v : Nat), j < l.length →
    (l.set j v).sum + l.getD j 0 = l.sum + v := by
  induction l with
  | nil => intro j v h; simp at h
  | cons a t ih =>
    intro j v h
    cases j with
    | zero => simp [List.set]; omega
    | succ j =>
      simp only [List.set, List.sum_cons, List.getD_cons_succ]
      have := ih j v (by simpa using h)
      omega

/-- A `getD` read of a list of bytes is a byte. -/
lemma getD_lt_of_forall_mem (l : List Nat) (i : Nat) (h : ∀ x ∈ l, x < 256) :
    l.getD i 0 < 256 := by
  by_cases hi : i < l.length
  · rw [List.getD_eq_getElem l 0 hi]
    exact h _ (List.getElem_mem hi)
  · rw [List.getD_eq_default _ _ (by omega)]
    omega

/-- C8 (amended): for every correctly encoded frame and every offset in
`[2, length + 1]` — the source, destination, command and payload bytes;
not the length byte at offset 1, where the claim fails — replacing the
byte at that offset with any different byte value changes the computed
checksum and causes decode of the modified buffer to report
checksum-invalid. -/
theorem checksum_flip_detected (q : Packet) (s d c : Nat) (data : List Nat)
    (hs : s < 256) (hd : d < 256) (hc : c < 256) (hdata : ∀ x ∈ data, x < 256)
    (hlen : data.length ≤ 252) (i v : Nat) (hi2 : 2 ≤ i) (hiU : i ≤ data.length + 4)
    (hv : v < 256) (hne : v ≠ ((Packet.make s d c data).FillBuffer).getD i 0) :
    Packet.checksum (((Packet.make s d c data).FillBuffer).set i v)
        ≠ Packet.checksum ((Packet.make s d c data).FillBuffer)
    ∧ (Packet.Parse q (((Packet.make s d c data).FillBuffer).set i v)).2 = false := by
  have hfb := fillBuffer_make s d c data (by omega)
  rw [map_mod_eq_self data hdata, Nat.mod_eq_of_lt hs, Nat.mod_eq_of_lt hd,
    Nat.mod_eq_of_lt hc] at hfb
  set pre := AUX_HDR :: (data.length + 3) :: s :: d :: c :: data with hpre
  set cb := Packet.checksum (pre ++ [0]) with hcbdef
  rw [hfb] at hne ⊢
  have hpreLen : pre.length = data.length + 5 := by simp [hpre]
  have hpreG1 : pre.getD 1 0 = data.length + 3 := by simp [hpre]
  have hBlen : (pre ++ [cb]).length = data.length + 6 := by simp [hpreLen]
  have hib : i < pre.length := by omega
  have hcksB : Packet.checksum (pre ++ [cb]) = cb := by
    rw [checksum_last_irrelevant pre cb 0 (by rw [hpreG1, hpreLen])]
  have hbset : (pre ++ [cb]).set i v = pre.set i v ++ [cb] := by
    rw [List.set_append, if_pos hib]
  have holdD : (pre ++ [cb]).getD i 0 = pre.getD i 0 := List.getD_append _ _ _ _ hib
  rw [holdD] at hne
  have hallPre : ∀ x ∈ pre, x < 256 := by
    rw [hpre]
    intro x hx
    simp only [List.mem_cons] at hx
    rcases hx with h | h | h | h | h | h
    · rw [h]; norm_num [AUX_HDR]
    · omega
    · omega
    · omega
    · omega
    · exact hdata x h
  have holdlt : pre.getD i 0 < 256 := getD_lt_of_forall_mem pre i hallPre
  have hBG1 : (pre ++ [cb]).getD 1 0 = data.length + 3 := by
    rw [List.getD_append _ _ _ _ (by omega), hpreG1]
  have hB'G1 : ((pre ++ [cb]).set i v).getD 1 0 = data.length + 3 := by
    rw [getD_set_ne _ _ _ _ (by omega), hBG1]
  have hT' : (((pre ++ [cb]).set i v).drop 1).take (data.length + 4)
      = (((pre ++ [cb]).drop 1).take (data.length + 4)).set (i - 1) v := by
    rw [List.drop_set, if_neg (by omega), List.set_take]
  have hTlen : (((pre ++ [cb]).drop 1).take (data.length + 4)).length
      = data.length + 4 := by
    rw [List.length_take, List.length_drop, hBlen]
    omega
  have hTold : (((pre ++ [cb]).drop 1).take (data.length + 4)).getD (i - 1) 0
      = pre.getD i 0 := by
    rw [getD_take _ _ _ (by omega), getD_drop]
    have e : 1 + (i - 1) = i := by omega
    rw [e, holdD]
  have hsum := sum_set_add (((pre ++ [cb]).drop 1).take (data.length + 4)) (i - 1) v
    (by rw [hTlen]; omega)
  rw [hTold] at hsum
  have hckB : Packet.checksum (pre ++ [cb])
      = (256 - (((pre ++ [cb]).drop 1).take (data.length + 4)).sum % 256) % 256 := by
    rw [checksum_window, hBG1]
  have hckB' : Packet.checksum ((pre ++ [cb]).set i v)
      = (256 - ((((pre ++ [cb]).drop 1).take (data.length + 4)).set (i - 1) v).sum
          % 256) % 256 := by
    rw [checksum_window, hB'G1, hT']
  have hNe : Packet.checksum ((pre ++ [cb]).set i v) ≠ Packet.checksum (pre ++ [cb]) := by
    rw [hckB, hckB']
    intro hEq
    exact hne (by omega)
  refine ⟨hNe, ?_⟩
  have hb'len : ((pre ++ [cb]).set i v).length = data.length + 6 := by
    rw [List.length_set, hBlen]
  have hb'0 : ((pre ++ [cb]).set i v).getD 0 0 = AUX_HDR := by
    rw [getD_set_ne _ _ _ _ (by omega), List.getD_append _ _ _ _ (by omega), hpre]
    rfl
  have hparse := parse_valid_shape q ((pre ++ [cb]).set i v)
    (by rw [hb'len]; omega) hb'0 (by rw [hb'len, hB'G1])
  have hb'cb : ((pre ++ [cb]).set i v).getD (data.length + 3 + 2) 0 = cb := by
    rw [getD_set_ne _ _ _ _ (by omega),
      List.getD_append_right _ _ _ _ (by rw [hpreLen])]
    rw [hpreLen]
    have e : data.length + 3 + 2 - (data.length + 5) = 0 := by omega
    rw [e]
    rfl
  have hsnd : (Packet.Parse q ((pre ++ [cb]).set i v)).2
      = (((pre ++ [cb]).set i v).getD (((pre ++ [cb]).set i v).getD 1 0 + 2) 0
          == Packet.checksum ((pre ++ [cb]).set i v)) := by
    rw [hparse]
  rw [hsnd, hB'G1, hb'cb, beq_eq_false_iff_ne]
  exact fun h => hNe (by rw [hcksB]; exact h.symm)

/-- C8 (counterexample to the claim as stated): offset 1 — inside the
claimed range `[1, length + 1]` — is the length byte; for the encoded
frame of source 0, destination 0, command 0 and payload `[253]` (covered
sum 257 ≡ 1 mod 256), replacing the length byte 4 by the different value
5 leaves the computed checksum unchanged at 255, and decode then fails
the length check rather than reporting checksum-invalid. -/
theorem checksum_flip_cex :
    (Packet.make 0 0 0 [253]).FillBuffer = [0x3B, 4, 0, 0, 0, 253, 255]
    ∧ Packet.checksum ([0x3B, 4, 0, 0, 0, 253, 255].set 1 5)
        = Packet.checksum [0x3B, 4, 0, 0, 0, 253, 255]
    ∧ (5 : Nat) ≠ 4 := by
  decide

/-- C8 witness: flipping the source byte of the worked-example frame
changes the checksum and is reported as checksum-invalid. -/
theorem checksum_flip_detected_witness :
    Packet.checksum (((Packet.make 0x20 0x12 1 []).FillBuffer).set 2 0x21)
        ≠ Packet.checksum ((Packet.make 0x20 0x12 1 []).FillBuffer)
    ∧ (Packet.Parse Packet.default
        (((Packet.make 0x20 0x12 1 []).FillBuffer).set 2 0x21)).2 = false :=
  checksum_flip_detected Packet.default 0x20 0x12 1 [] (by decide) (by decide) (by decide)
    (by decide) (by decide) 2 0x21 (by decide) (by decide) (by decide) (by decide)

end Aux
